import Mathlib

/-!
Verification of the request admission and response-integrity pipeline of the
gpcal-ai Supabase edge function (`supabase/functions/gpcal-ai/index.ts`).

The embedding models, faithfully to the TypeScript source:
* `JSON.parse` / `JSON.stringify` (JavaScript built-ins) as an executable JSON
  parser and renderer over a `Json` value type; numbers are kept as their
  source lexemes since the handler never inspects numeric values;
* the zod schemas `BodySchema` (strict, fields `input` and `semester`) and
  `AIResponseSchema` (non-strict, `reply` and optional `suggested_improvement`);
* the regex repair `text.replace(/"\s+"suggested_improvement"/, ...)` and the
  three-tier reconciliation of the model's raw text;
* the fixed-window rate limiter over `ipMap` and the full `Deno.serve` handler
  as a pure function of the request, the gateway outcome, the current time and
  the shared map, additionally reporting whether the gateway timeout timer was
  armed and cleared, whether the model gateway was invoked, and the messages
  sent to it.
-/

namespace GpcalAi

/-- Result values of JavaScript `JSON.parse`. Numbers are represented by their
source lexeme (the handler never inspects numeric values). -/
inductive Json where
  | null
  | bool (b : Bool)
  | num (lexeme : String)
  | str (s : String)
  | arr (elems : List Json)
  | obj (fields : List (String × Json))

/-- Characters treated as insignificant whitespace by the JSON grammar. -/
def isJsonWs (c : Char) : Bool :=
  c = ' ' || c = '\t' || c = '\n' || c = '\r'

/-- ASCII characters matched by the JavaScript regex class `\s`
(as used in the repair regex of the handler). -/
def isJsWs (c : Char) : Bool :=
  c = ' ' || c = '\t' || c = '\n' || c = '\r' || c = '\x0b' || c = '\x0c'

/-- Skip insignificant JSON whitespace. -/
def skipWs (cs : List Char) : List Char := cs.dropWhile isJsonWs

/-- Single-character JSON string escapes (after a backslash). -/
def escChar (c : Char) : Option Char :=
  if c = '"' then some '"'
  else if c = '\\' then some '\\'
  else if c = '/' then some '/'
  else if c = 'b' then some '\x08'
  else if c = 'f' then some '\x0c'
  else if c = 'n' then some '\n'
  else if c = 'r' then some '\r'
  else if c = 't' then some '\t'
  else none

/-- Value of a hexadecimal digit. -/
def hexVal (c : Char) : Option Nat :=
  if '0' ≤ c ∧ c ≤ '9' then some (c.toNat - 48)
  else if 'a' ≤ c ∧ c ≤ 'f' then some (c.toNat - 87)
  else if 'A' ≤ c ∧ c ≤ 'F' then some (c.toNat - 55)
  else none

mutual

/-- Parse the body of a JSON string literal (the part after the opening
quote), returning the decoded characters and the input after the closing
quote. Unescaped control characters are rejected, as by `JSON.parse`. -/
def stringBody : List Char → Option (List Char × List Char)
  | [] => none
  | c :: rest =>
    if c = '"' then some ([], rest)
    else if c = '\\' then stringEsc rest
    else if c.toNat < 32 then none
    else
      match stringBody rest with
      | some (l, r) => some (c :: l, r)
      | none => none

/-- Parse what follows a backslash inside a JSON string literal. -/
def stringEsc : List Char → Option (List Char × List Char)
  | 'u' :: h1 :: h2 :: h3 :: h4 :: rest =>
    match hexVal h1, hexVal h2, hexVal h3, hexVal h4 with
    | some a, some b, some c2, some d =>
      match stringBody rest with
      | some (l, r) => some (Char.ofNat (((a * 16 + b) * 16 + c2) * 16 + d) :: l, r)
      | none => none
    | _, _, _, _ => none
  | e :: rest =>
    match escChar e with
    | some ec =>
      match stringBody rest with
      | some (l, r) => some (ec :: l, r)
      | none => none
    | none => none
  | [] => none

end

/-- Integer part of a JSON number: `0` or a nonzero digit followed by digits. -/
def parseIntPart : List Char → Option (List Char × List Char)
  | [] => none
  | c :: t =>
    if c = '0' then some (['0'], t)
    else if c.isDigit then some (c :: t.takeWhile Char.isDigit, t.dropWhile Char.isDigit)
    else none

/-- Optional fractional part of a JSON number. -/
def parseFrac : List Char → Option (List Char × List Char)
  | [] => some ([], [])
  | c :: t =>
    if c = '.' then
      let ds := t.takeWhile Char.isDigit
      if ds = [] then none else some ('.' :: ds, t.dropWhile Char.isDigit)
    else some ([], c :: t)

/-- Optional exponent part of a JSON number. -/
def parseExp : List Char → Option (List Char × List Char)
  | [] => some ([], [])
  | c :: t =>
    if c = 'e' || c = 'E' then
      let (sign, t2) : List Char × List Char :=
        match t with
        | '+' :: u => (['+'], u)
        | '-' :: u => (['-'], u)
        | _ => ([], t)
      let ds := t2.takeWhile Char.isDigit
      if ds = [] then none else some (c :: (sign ++ ds), t2.dropWhile Char.isDigit)
    else some ([], c :: t)

/-- Parse a JSON number, returning its lexeme and the remaining input. -/
def parseNumber (cs : List Char) : Option (String × List Char) :=
  let (neg, cs1) : List Char × List Char :=
    match cs with
    | '-' :: t => (['-'], t)
    | _ => ([], cs)
  match parseIntPart cs1 with
  | none => none
  | some (ip, cs2) =>
    match parseFrac cs2 with
    | none => none
    | some (fp, cs3) =>
      match parseExp cs3 with
      | none => none
      | some (ep, cs4) => some (String.mk (neg ++ ip ++ fp ++ ep), cs4)

mutual

/-- Parse one JSON value. The fuel bounds the recursion; every recursive call
consumes at least one input character first, so `length + 1` fuel suffices. -/
def parseValue : Nat → List Char → Option (Json × List Char)
  | 0, _ => none
  | f + 1, cs =>
    match skipWs cs with
    | [] => none
    | c :: rest =>
      if c = '\x7b' then
        match skipWs rest with
        | '\x7d' :: rest2 => some (.obj [], rest2)
        | _ => parseMembers f rest []
      else if c = '[' then
        match skipWs rest with
        | ']' :: rest2 => some (.arr [], rest2)
        | _ => parseElems f rest []
      else if c = '"' then
        match stringBody rest with
        | some (l, rest2) => some (.str (String.mk l), rest2)
        | none => none
      else if c = 't' then
        match rest with
        | 'r' :: 'u' :: 'e' :: rest2 => some (.bool true, rest2)
        | _ => none
      else if c = 'f' then
        match rest with
        | 'a' :: 'l' :: 's' :: 'e' :: rest2 => some (.bool false, rest2)
        | _ => none
      else if c = 'n' then
        match rest with
        | 'u' :: 'l' :: 'l' :: rest2 => some (.null, rest2)
        | _ => none
      else
        match parseNumber (c :: rest) with
        | some (lex, rest2) => some (.num lex, rest2)
        | none => none

/-- Parse the members of a JSON object after its opening brace
(the empty-object case is handled by `parseValue`). -/
def parseMembers : Nat → List Char → List (String × Json) → Option (Json × List Char)
  | 0, _, _ => none
  | f + 1, cs, acc =>
    match skipWs cs with
    | '"' :: rest =>
      match stringBody rest with
      | some (key, rest2) =>
        match skipWs rest2 with
        | ':' :: rest3 =>
          match parseValue f rest3 with
          | some (v, rest4) =>
            match skipWs rest4 with
            | ',' :: rest5 => parseMembers f rest5 (acc ++ [(String.mk key, v)])
            | '\x7d' :: rest5 => some (.obj (acc ++ [(String.mk key, v)]), rest5)
            | _ => none
          | none => none
        | _ => none
      | none => none
    | _ => none

/-- Parse the elements of a JSON array after its opening bracket
(the empty-array case is handled by `parseValue`). -/
def parseElems : Nat → List Char → List Json → Option (Json × List Char)
  | 0, _, _ => none
  | f + 1, cs, acc =>
    match parseValue f cs with
    | some (v, rest) =>
      match skipWs rest with
      | ',' :: rest2 => parseElems f rest2 (acc ++ [v])
      | ']' :: rest2 => some (.arr (acc ++ [v]), rest2)
      | _ => none
    | none => none

end

/-- JavaScript `JSON.parse`: parse a complete JSON document,
`none` when the built-in would throw. -/
def parseJson (t : String) : Option Json :=
  match parseValue (t.length + 1) t.data with
  | some (v, rest) => if skipWs rest = [] then some v else none
  | none => none

/-- Field lookup in a parsed object; the last occurrence of a duplicated key
wins, matching the object produced by JavaScript `JSON.parse`. -/
def lookupField : List (String × Json) → String → Option Json
  | [], _ => none
  | (k, v) :: rest, key =>
    match lookupField rest key with
    | some w => some w
    | none => if k = key then some v else none

/-- The outgoing result shape: `AIResponseSchema` successes. -/
structure AIResult where
  reply : String
  suggested_improvement : Option String
deriving DecidableEq

/-- `AIResponseSchema.parse` from the source:
`z.object({ reply: z.string().min(1), suggested_improvement: z.string().min(1).optional() })`.
The schema is not `.strict()`: unknown fields are stripped, not rejected. -/
def parseAIResponse (j : Json) : Option AIResult :=
  match j with
  | .obj fs =>
    match lookupField fs "reply" with
    | some (.str r) =>
      if r = "" then none
      else
        match lookupField fs "suggested_improvement" with
        | none => some ⟨r, none⟩
        | some (.str s) => if s = "" then none else some ⟨r, some s⟩
        | some _ => none
    | _ => none
  | _ => none

/-- A validated request body (`BodySchema` success). -/
structure BodyOk where
  input : String
  semester : List (String × Json)

/-- The closed key set of the strict `BodySchema`. -/
def bodyKeyAllowed (k : String) : Bool := k = "input" || k = "semester"

/-- `BodySchema.parse` from the source:
`z.object({ input: z.string().min(1), semester: z.record(z.string(), z.unknown()) }).strict()`.
Strictness rejects any unknown key; `z.record` requires a plain object. -/
def parseBody (j : Json) : Option BodyOk :=
  match j with
  | .obj fs =>
    if fs.all (fun kv => bodyKeyAllowed kv.1) then
      match lookupField fs "input" with
      | some (.str i) =>
        if i = "" then none
        else
          match lookupField fs "semester" with
          | some (.obj sem) => some ⟨i, sem⟩
          | _ => none
      | _ => none
    else none
  | _ => none

/-- The literal `"suggested_improvement"` (with its quotes) that the repair
regex must find after the whitespace run. -/
def sugLit : List Char := "\"suggested_improvement\"".data

/-- The replacement text `", "suggested_improvement"` of the repair. -/
def repLit : List Char := "\", \"suggested_improvement\"".data

/-- Does the repair regex `/"\s+"suggested_improvement"/` match at the head of
the input? Returns the input following the match. Matching the maximal
whitespace run is equivalent to the regex's backtracking search because the
literal after `\s+` starts with a non-whitespace character. -/
def matchPat : List Char → Option (List Char)
  | [] => none
  | c :: rest =>
    if c = '"' then
      if rest.takeWhile isJsWs = [] then none
      else if sugLit.isPrefixOf (rest.dropWhile isJsWs) then
        some ((rest.dropWhile isJsWs).drop sugLit.length)
      else none
    else none

/-- `text.replace(/"\s+"suggested_improvement"/, '", "suggested_improvement"')`:
replace the leftmost match of the repair regex, if any. -/
def fixGo : List Char → List Char
  | [] => []
  | c :: rest =>
    match matchPat (c :: rest) with
    | some after => repLit ++ after
    | none => c :: fixGo rest

/-- The repair transform applied to the raw model text. -/
def fixText (t : String) : String := String.mk (fixGo t.data)

/-- The fixed fallback reply of the third reconciliation tier. -/
def fallbackReply : String := "Sorry, could not generate insights. Try again."

/-- `AIResponseSchema.parse(JSON.parse(text))`, `none` when either throws. -/
def parseAIJson (t : String) : Option AIResult := (parseJson t).bind parseAIResponse

/-- The three-tier reconciliation of the raw model text: parse and validate;
on failure repair and retry; on continued failure return the fixed fallback. -/
def reconcile (t : String) : AIResult :=
  match parseAIJson t with
  | some r => r
  | none =>
    match parseAIJson (fixText t) with
    | some r => r
    | none => ⟨fallbackReply, none⟩

/-- Hexadecimal digit character (lower case), for `JSON.stringify` escapes. -/
def hexDigit (n : Nat) : Char := if n < 10 then Char.ofNat (48 + n) else Char.ofNat (87 + n)

/-- `JSON.stringify` escaping of one character inside a string literal. -/
def escJsChar (c : Char) : List Char :=
  if c = '"' then ['\\', '"']
  else if c = '\\' then ['\\', '\\']
  else if c = '\n' then ['\\', 'n']
  else if c = '\r' then ['\\', 'r']
  else if c = '\t' then ['\\', 't']
  else if c = '\x08' then ['\\', 'b']
  else if c = '\x0c' then ['\\', 'f']
  else if c.toNat < 32 then ['\\', 'u', '0', '0', hexDigit (c.toNat / 16), hexDigit (c.toNat % 16)]
  else [c]

/-- Escape every character of a string body. -/
def escList : List Char → List Char
  | [] => []
  | c :: rest => escJsChar c ++ escList rest

/-- `JSON.stringify` of a string. -/
def quoteJs (s : String) : String := String.mk ('"' :: (escList s.data ++ ['"']))

mutual

/-- `JSON.stringify` of a parsed JSON value (numbers by their lexeme). -/
def renderJson : Json → String
  | .null => "null"
  | .bool true => "true"
  | .bool false => "false"
  | .num lex => lex
  | .str s => quoteJs s
  | .arr xs => "[" ++ renderElems xs ++ "]"
  | .obj fs => "\x7b" ++ renderFields fs ++ "\x7d"

/-- Comma-separated rendering of array elements. -/
def renderElems : List Json → String
  | [] => ""
  | [x] => renderJson x
  | x :: y :: rest => renderJson x ++ "," ++ renderElems (y :: rest)

/-- Comma-separated rendering of object fields. -/
def renderFields : List (String × Json) → String
  | [] => ""
  | [(k, v)] => quoteJs k ++ ":" ++ renderJson v
  | (k, v) :: p :: rest => quoteJs k ++ ":" ++ renderJson v ++ "," ++ renderFields (p :: rest)

end

/-- `JSON.stringify(aiData)`: `aiData` is either a schema success (fields in
schema order, `suggested_improvement` omitted when absent) or the fallback
object, which has no `suggested_improvement`. -/
def renderAIResult (r : AIResult) : String :=
  "\x7b\"reply\":" ++ quoteJs r.reply ++
    (match r.suggested_improvement with
     | none => ""
     | some s => ",\"suggested_improvement\":" ++ quoteJs s) ++ "\x7d"

/-- The system instruction from `index.ts` (template literal `SYSTEM_PROMPT`). -/
def SYSTEM_PROMPT : String :=
  "You are gpcal, an academic performance analyst.\n\nContext:\nThe frontend already displays the semester GPA, cumulative GPA, grading scale, course grades, credit units, and performance charts.\nThe user is requesting analytical insight into overall semester performance.\n\n\nRules:\nAlways respond in valid JSON.\nFollow this schema exactly:\n\x7b\n  \"reply\": string,\n  \"suggested_improvement\"?: string\n\x7d\n\nDo not include markdown, code fences, or any text outside the JSON object.\n\nDo not repeat or restate values already visible in the UI, including GPA numbers, CGPA numbers, grading scales, or grades.\n\nDo not calculate or estimate GPA values since it is already in the payload sent to you.\n\nB grades upwards represent solid performance and academic stability.\nOnly identify imbalance when non top tier performance is concentrated in the highest credit weight courses, creating outsized impact on overall results.\nAvoid framing strong performance as needing correction.\n\nBehavior:\nFocus on interpretation, not presentation.\n\nIn \"reply\":\nAnalyze patterns in the semester data.\nExplain what is shaping the overall performance.\nIdentify imbalance, consistency issues, risk concentration, or leverage points.\nHighlight what matters most academically and why.\n\nIn \"suggested_improvement\":\nInclude only if there is a meaningful opportunity for improvement.\nDescribe the highest impact area for improvement in plain language.\nKeep it realistic, concise, and grounded strictly in the provided data.\nOmit this field entirely if performance is already strong or well balanced.\n\nTone:\nClear, analytical, and practical.\nNo praise, fluff, or generic academic advice.\n"

/-- The fixed `note` string of the user message payload. -/
def semesterNote : String :=
  "semester is an object containing term name, semester GPA, cumulative GPA, grading system, and a list of courses with credit units and grade points."

/-- One conversation message (the source types these with `MessageSchema`). -/
structure Message where
  role : String
  content : String
deriving DecidableEq

/-- `JSON.stringify({ intent: body.input, semester: body.semester, note: ... })`:
the content of the user message. -/
def userContent (b : BodyOk) : String :=
  "\x7b\"intent\":" ++ quoteJs b.input ++ ",\"semester\":" ++ renderJson (Json.obj b.semester) ++
    ",\"note\":" ++ quoteJs semesterNote ++ "\x7d"

/-- One `ipMap` entry: `{ count: number; firstRequest: number }`. -/
structure RateRecord where
  count : Nat
  firstRequest : Nat
deriving DecidableEq

/-- `RATE_LIMIT_WINDOW = 60 * 1000` (one minute in milliseconds). -/
def RATE_LIMIT_WINDOW : Nat := 60 * 1000

/-- `MAX_REQUESTS = 5`. -/
def MAX_REQUESTS : Nat := 5

/-- The shared `ipMap` of the module, as a partial mapping from client keys. -/
abbrev IpMap := String → Option RateRecord

/-- The map at module start: no entries. -/
def emptyIpMap : IpMap := fun _ => none

/-- `ipMap.set(k, r)`. -/
def setIp (m : IpMap) (k : String) (r : RateRecord) : IpMap :=
  fun k2 => if k2 = k then some r else m k2

/-- An incoming HTTP request, with its raw body text. -/
structure Request where
  method : String
  xForwardedFor : Option String
  body : String
deriving DecidableEq

/-- `req.headers.get("x-forwarded-for")?.split(",")[0].trim() || "unknown"`. -/
def clientKey (req : Request) : String :=
  match req.xForwardedFor with
  | none => "unknown"
  | some h =>
    let tok := ((h.splitOn ",").headD "").trim
    if tok = "" then "unknown" else tok

/-- Outcome of the external `openai.responses.create` call: the promise
rejects (network failure, abort, ...) or resolves with `output_text`. -/
inductive GatewayOutcome where
  | err
  | ok (outputText : String)
deriving DecidableEq

/-- An HTTP response: status, body, and the explicitly set headers. -/
structure HttpResp where
  status : Nat
  body : String
  headers : List (String × String)
deriving DecidableEq

/-- The outcome of one handler invocation: the response, the `ipMap` after the
call, whether the timeout timer was armed (`setTimeout` reached) and cleared
(`clearTimeout` reached), whether the gateway was invoked, and the messages
sent to it. -/
structure HandlerResult where
  response : HttpResp
  ipMap : IpMap
  timerArmed : Bool
  timerCleared : Bool
  gatewayCalled : Bool
  messages : List Message

/-- Body of the 429 response. -/
def tooManyBody : String := "\x7b\"msg\":\"Too many requests\"\x7d"

/-- Body of the 405 response. -/
def methodNotAllowedBody : String := "\x7b\"msg\":\"Method Not Allowed\"\x7d"

/-- Body of the 400 response. -/
def invalidBodyMsg : String := "\x7b\"msg\":\"Invalid request body\"\x7d"

/-- Body of the 500 response. -/
def aiFailedBody : String := "\x7b\"msg\":\"Ai request failed\"\x7d"

/-- The rate-limiter step of the handler (lines 95-114 of `index.ts`): either
an immediate 429 response leaving the map unchanged, or the updated map. -/
def rateCheck (m : IpMap) (k : String) (now : Nat) : HttpResp ⊕ IpMap :=
  match m k with
  | some rec =>
    if now - rec.firstRequest < RATE_LIMIT_WINDOW then
      if rec.count ≥ MAX_REQUESTS then
        Sum.inl ⟨429, tooManyBody, []⟩
      else
        Sum.inr (setIp m k ⟨rec.count + 1, rec.firstRequest⟩)
    else
      Sum.inr (setIp m k ⟨1, now⟩)
  | none => Sum.inr (setIp m k ⟨1, now⟩)

/-- The `Deno.serve` handler of `index.ts` as a pure function. The steps, in
source order: derive the client key; run the rate limiter; reject non-POST
methods; arm the timeout timer; parse and validate the body (400 on failure,
timer left armed); call the gateway (a rejection reaches the outer catch as
500 with the timer left armed); clear the timer; treat empty `output_text`
as a thrown error (500); reconcile and respond 200. -/
def handleRequest (req : Request) (gw : GatewayOutcome) (now : Nat) (m : IpMap) :
    HandlerResult :=
  match rateCheck m (clientKey req) now with
  | Sum.inl resp => ⟨resp, m, false, false, false, []⟩
  | Sum.inr m2 =>
    if req.method ≠ "POST" then
      ⟨⟨405, methodNotAllowedBody, []⟩, m2, false, false, false, []⟩
    else
      match (parseJson req.body).bind parseBody with
      | none => ⟨⟨400, invalidBodyMsg, []⟩, m2, true, false, false, []⟩
      | some b =>
        let msgs := [⟨"system", SYSTEM_PROMPT⟩, ⟨"user", userContent b⟩]
        match gw with
        | GatewayOutcome.err => ⟨⟨500, aiFailedBody, []⟩, m2, true, false, true, msgs⟩
        | GatewayOutcome.ok text =>
          if text = "" then
            ⟨⟨500, aiFailedBody, []⟩, m2, true, true, true, msgs⟩
          else
            ⟨⟨200, renderAIResult (reconcile text),
               [("Content-Type", "application/json"), ("Cache-Control", "no-store")]⟩,
             m2, true, true, true, msgs⟩

/-- Fold a sequence of calls (request, gateway outcome, timestamp) through the
handler, tracking the shared `ipMap`. -/
def runCalls : List (Request × GatewayOutcome × Nat) → IpMap → IpMap
  | [], m => m
  | (r, g, t) :: rest, m => runCalls rest (handleRequest r g t m).ipMap


/-- Validity of an outgoing result per the AIResult data-model invariant:
`reply` non-empty and `suggested_improvement`, when present, non-empty. -/
def AIResultValid (r : AIResult) : Prop :=
  r.reply ≠ "" ∧ ∀ s, r.suggested_improvement = some s → s ≠ ""



/-- A concrete valid POST request (body `\x7b"input":"a","semester":\x7b\x7d\x7d`), used in witnesses. -/
def sampleReq : Request := ⟨"POST", none, "\x7b\"input\":\"a\",\"semester\":\x7b\x7d\x7d"⟩

/-- A concrete successful gateway outcome (`output_text` a valid reply), used in witnesses. -/
def sampleGw : GatewayOutcome := GatewayOutcome.ok "\x7b\"reply\":\"b\"\x7d"

/-- The shared map after `n` sample calls at time 0, used in witnesses. -/
def sampleMap : Nat → IpMap
  | 0 => emptyIpMap
  | n + 1 => (handleRequest sampleReq sampleGw 0 (sampleMap n)).ipMap


/-- A character that needs no escaping inside a JSON string literal:
not a quote, not a backslash, not a control character. The repair claim is
stated for reply/improvement texts built from such characters. -/
def jsonSafeChar (c : Char) : Bool := c != '"' && c != '\\' && decide (32 ≤ c.toNat)

/-- Every character of the string is `jsonSafeChar`. -/
def jsonSafe (x : String) : Bool := x.data.all jsonSafeChar

/-- Every character of the string is matched by the regex class `\s`. -/
def allJsWs (x : String) : Bool := x.data.all isJsWs

/-- The characters of the `reply` key. -/
def replyKeyChars : List Char := ['r', 'e', 'p', 'l', 'y']

/-- The characters of the `suggested_improvement` key. -/
def sugKeyChars : List Char :=
  ['s', 'u', 'g', 'g', 'e', 's', 't', 'e', 'd', '_', 'i', 'm', 'p', 'r', 'o', 'v', 'e', 'm', 'e', 'n', 't']

/-- Character-list form of `malformedAI`. -/
def malformedChars (r w s : List Char) : List Char :=
  '\x7b' :: '"' :: (replyKeyChars ++ '"' :: ':' :: ('"' :: (r ++ '"' :: (w ++
    ('"' :: (sugKeyChars ++ '"' :: ':' :: ('"' :: (s ++ '"' :: '\x7d' :: []))))))))

/-- Character-list form of `fixedAI`. -/
def fixedChars (r s : List Char) : List Char :=
  '\x7b' :: '"' :: (replyKeyChars ++ '"' :: ':' :: ('"' :: (r ++ '"' :: ',' :: ' ' ::
    ('"' :: (sugKeyChars ++ '"' :: ':' :: ('"' :: (s ++ '"' :: '\x7d' :: [])))))))

/-- The known malformation pattern of claim C7: AIResult JSON whose field
separator between the `reply` pair and the `suggested_improvement` pair has
been replaced by whitespace `w`. -/
def malformedAI (r w s : String) : String :=
  "\x7b\"reply\":\"" ++ r ++ "\"" ++ w ++ "\"suggested_improvement\":\"" ++ s ++ "\"\x7d"

/-- The repaired text: the same AIResult JSON with the separator restored
exactly as the replacement string of the repair regex writes it. -/
def fixedAI (r s : String) : String :=
  "\x7b\"reply\":\"" ++ r ++ "\", \"suggested_improvement\":\"" ++ s ++ "\"\x7d"

/-! ## Helper lemmas -/

theorem setIp_self (m : IpMap) (k : String) (r : RateRecord) : setIp m k r k = some r := by
  simp [setIp]

theorem rateCheck_none {m : IpMap} {k : String} {now : Nat} (h : m k = none) :
    rateCheck m k now = Sum.inr (setIp m k ⟨1, now⟩) := by
  unfold rateCheck; rw [h]

theorem rateCheck_under {m : IpMap} {k : String} {now c fr : Nat} (h : m k = some ⟨c, fr⟩)
    (hw : now - fr < RATE_LIMIT_WINDOW) (hc : c < MAX_REQUESTS) :
    rateCheck m k now = Sum.inr (setIp m k ⟨c + 1, fr⟩) := by
  unfold rateCheck; rw [h]; dsimp only
  rw [if_pos hw, if_neg (by omega)]

theorem rateCheck_full {m : IpMap} {k : String} {now c fr : Nat} (h : m k = some ⟨c, fr⟩)
    (hw : now - fr < RATE_LIMIT_WINDOW) (hc : MAX_REQUESTS ≤ c) :
    rateCheck m k now = Sum.inl ⟨429, tooManyBody, []⟩ := by
  unfold rateCheck; rw [h]; dsimp only
  rw [if_pos hw, if_pos hc]

theorem handleRequest_of_denied {req : Request} {g : GatewayOutcome} {now : Nat} {m : IpMap}
    {resp : HttpResp} (h : rateCheck m (clientKey req) now = Sum.inl resp) :
    handleRequest req g now m = ⟨resp, m, false, false, false, []⟩ := by
  unfold handleRequest; rw [h]

theorem handleRequest_ipMap {req : Request} {g : GatewayOutcome} {now : Nat} {m m2 : IpMap}
    (h : rateCheck m (clientKey req) now = Sum.inr m2) :
    (handleRequest req g now m).ipMap = m2 := by
  unfold handleRequest; rw [h]; dsimp only
  split
  · rfl
  · split
    · rfl
    · split
      · rfl
      · split <;> rfl

theorem handleRequest_status_ne429 {req : Request} {g : GatewayOutcome} {now : Nat}
    {m m2 : IpMap} (h : rateCheck m (clientKey req) now = Sum.inr m2) :
    (handleRequest req g now m).response.status ≠ 429 := by
  unfold handleRequest; rw [h]; dsimp only
  split
  · dsimp only; decide
  · split
    · dsimp only; decide
    · split
      · dsimp only; decide
      · split <;> (dsimp only; decide)

theorem lookupField_mem {fs : List (String × Json)} {k : String} :
    ∀ {v : Json}, lookupField fs k = some v → ∃ p ∈ fs, p.1 = k := by
  induction fs with
  | nil => intro v h; simp [lookupField] at h
  | cons hd tl ih =>
    intro v h
    rw [lookupField] at h
    cases htl : lookupField tl k with
    | some w =>
      obtain ⟨p, hp, hpk⟩ := ih htl
      exact ⟨p, List.mem_cons_of_mem _ hp, hpk⟩
    | none =>
      rw [htl] at h
      by_cases hk : hd.1 = k
      · exact ⟨hd, List.mem_cons_self _ _, hk⟩
      · rw [if_neg hk] at h
        exact absurd h (by simp)

theorem parseBody_none_cases {fs : List (String × Json)}
    (hbad : lookupField fs "input" = none ∨ lookupField fs "semester" = none ∨
            (∃ kv ∈ fs, bodyKeyAllowed kv.1 = false) ∨
            (∃ v, lookupField fs "stage" = some v)) :
    parseBody (Json.obj fs) = none := by
  have extraCase : ∀ kv ∈ fs, bodyKeyAllowed kv.1 = false → parseBody (Json.obj fs) = none := by
    intro kv hmem hkv
    have hall : (fs.all fun kv => bodyKeyAllowed kv.1) = false := by
      cases hfa : fs.all fun kv => bodyKeyAllowed kv.1 with
      | false => rfl
      | true =>
        have h2 : bodyKeyAllowed kv.1 = true := by
          simpa using List.all_eq_true.mp hfa kv hmem
        rw [hkv] at h2
        exact absurd h2 (by simp)
    simp [parseBody, hall]
  rcases hbad with h | h | ⟨kv, hmem, hkv⟩ | ⟨v, hv⟩
  · simp only [parseBody]
    split
    · rw [h]
    · rfl
  · simp only [parseBody]
    split
    · split
      · split
        · rfl
        · rw [h]
      · rfl
    · rfl
  · exact extraCase kv hmem hkv
  · obtain ⟨p, hmem, hp⟩ := lookupField_mem hv
    exact extraCase p hmem (by rw [hp]; decide)

theorem parseAIResponse_valid {j : Json} {r : AIResult}
    (h : parseAIResponse j = some r) : AIResultValid r := by
  unfold parseAIResponse at h
  split at h
  · split at h
    · split at h
      · exact Option.noConfusion h
      · rename_i r0 hrt hne
        split at h
        · injection h with h2
          subst h2
          exact ⟨hne, fun s hs => Option.noConfusion hs⟩
        · split at h
          · exact Option.noConfusion h
          · rename_i s0 hst hsne
            injection h with h2
            subst h2
            refine ⟨hne, fun s hs => ?_⟩
            injection hs with h3
            subst h3
            exact hsne
        · exact Option.noConfusion h
    · exact Option.noConfusion h
  · exact Option.noConfusion h

theorem reconcile_valid (u : String) : AIResultValid (reconcile u) := by
  unfold reconcile
  cases h1 : parseAIJson u with
  | some r =>
    obtain ⟨j, _, hp⟩ := Option.bind_eq_some.mp h1
    exact parseAIResponse_valid hp
  | none =>
    cases h2 : parseAIJson (fixText u) with
    | some r =>
      obtain ⟨j, _, hp⟩ := Option.bind_eq_some.mp h2
      exact parseAIResponse_valid hp
    | none =>
      exact ⟨by decide, fun s hs => by simp at hs⟩

theorem rateCheck_inr_inv {m m2 : IpMap} {k : String} {now : Nat}
    (h : rateCheck m k now = Sum.inr m2)
    (hInv : ∀ k2 r2, m k2 = some r2 → r2.count ≤ MAX_REQUESTS) :
    ∀ k2 r2, m2 k2 = some r2 → r2.count ≤ MAX_REQUESTS := by
  unfold rateCheck at h
  cases hm : m k with
  | none =>
    rw [hm] at h
    injection h with h2
    subst h2
    intro k2 r2 hk2
    unfold setIp at hk2
    by_cases he : k2 = k
    · rw [if_pos he] at hk2; injection hk2 with h3; subst h3; dsimp only; decide
    · rw [if_neg he] at hk2; exact hInv k2 r2 hk2
  | some r0 =>
    rw [hm] at h
    dsimp only at h
    by_cases hw : now - r0.firstRequest < RATE_LIMIT_WINDOW
    · rw [if_pos hw] at h
      by_cases hc : r0.count ≥ MAX_REQUESTS
      · rw [if_pos hc] at h; exact absurd h (by simp)
      · rw [if_neg hc] at h
        injection h with h2
        subst h2
        intro k2 r2 hk2
        unfold setIp at hk2
        by_cases he : k2 = k
        · rw [if_pos he] at hk2; injection hk2 with h3; subst h3; dsimp only; omega
        · rw [if_neg he] at hk2; exact hInv k2 r2 hk2
    · rw [if_neg hw] at h
      injection h with h2
      subst h2
      intro k2 r2 hk2
      unfold setIp at hk2
      by_cases he : k2 = k
      · rw [if_pos he] at hk2; injection hk2 with h3; subst h3; dsimp only; decide
      · rw [if_neg he] at hk2; exact hInv k2 r2 hk2

theorem handleRequest_inv {req : Request} {g : GatewayOutcome} {now : Nat} {m : IpMap}
    (hInv : ∀ k2 r2, m k2 = some r2 → r2.count ≤ MAX_REQUESTS) :
    ∀ k2 r2, (handleRequest req g now m).ipMap k2 = some r2 → r2.count ≤ MAX_REQUESTS := by
  cases hrc : rateCheck m (clientKey req) now with
  | inl resp =>
    rw [handleRequest_of_denied hrc]
    exact hInv
  | inr m2 =>
    rw [handleRequest_ipMap hrc]
    exact rateCheck_inr_inv hrc hInv

theorem runCalls_inv (calls : List (Request × GatewayOutcome × Nat)) :
    ∀ m : IpMap, (∀ k2 r2, m k2 = some r2 → r2.count ≤ MAX_REQUESTS) →
    ∀ k2 r2, runCalls calls m k2 = some r2 → r2.count ≤ MAX_REQUESTS := by
  induction calls with
  | nil => intro m h; exact h
  | cons c rest ih =>
    intro m h
    obtain ⟨rq, g, t⟩ := c
    exact ih _ (handleRequest_inv h)


theorem handleRequest_invalid_body {req : Request} {g : GatewayOutcome} {now : Nat}
    {m : IpMap} {fs : List (String × Json)}
    (hpost : req.method = "POST") (hm : m (clientKey req) = none)
    (hj : parseJson req.body = some (Json.obj fs))
    (hpb : parseBody (Json.obj fs) = none) :
    handleRequest req g now m =
      ⟨⟨400, invalidBodyMsg, []⟩, setIp m (clientKey req) ⟨1, now⟩, true, false, false, []⟩ := by
  unfold handleRequest
  rw [rateCheck_none hm]
  dsimp only
  rw [if_neg (by simp [hpost]), hj]
  rw [show (some (Json.obj fs)).bind parseBody = parseBody (Json.obj fs) from rfl, hpb]

theorem handleRequest_ok {req : Request} {g : GatewayOutcome} {now : Nat} {m : IpMap}
    {b : BodyOk} {t : String}
    (hpost : req.method = "POST") (hm : m (clientKey req) = none)
    (hb : (parseJson req.body).bind parseBody = some b)
    (hg : g = GatewayOutcome.ok t) (ht : t ≠ "") :
    handleRequest req g now m =
      ⟨⟨200, renderAIResult (reconcile t),
         [("Content-Type", "application/json"), ("Cache-Control", "no-store")]⟩,
       setIp m (clientKey req) ⟨1, now⟩, true, true, true,
       [⟨"system", SYSTEM_PROMPT⟩, ⟨"user", userContent b⟩]⟩ := by
  subst hg
  unfold handleRequest
  rw [rateCheck_none hm]
  dsimp only
  rw [if_neg (by simp [hpost]), hb]
  dsimp only
  rw [if_neg ht]

theorem stringBody_safe {l : List Char} (h : ∀ c ∈ l, jsonSafeChar c = true)
    (rest : List Char) : stringBody (l ++ '"' :: rest) = some (l, rest) := by
  induction l with
  | nil => rfl
  | cons c l2 ih =>
    have hc := h c (List.mem_cons_self ..)
    simp only [jsonSafeChar, Bool.and_eq_true, bne_iff_ne, ne_eq, decide_eq_true_eq] at hc
    obtain ⟨⟨h1, h2⟩, h3⟩ := hc
    simp only [List.cons_append, stringBody, List.append_eq]
    rw [if_neg h1, if_neg h2, if_neg (by omega)]
    rw [ih (fun c2 hc2 => h c2 (List.mem_cons_of_mem _ hc2))]
theorem parseValue_strLit (f : Nat) {l : List Char} (h : ∀ c ∈ l, jsonSafeChar c = true)
    (rest : List Char) :
    parseValue (f + 1) ('"' :: (l ++ '"' :: rest)) = some (.str (String.mk l), rest) := by
  have e : parseValue (f + 1) ('"' :: (l ++ '"' :: rest))
      = (match stringBody (l ++ '"' :: rest) with
         | some (l2, r2) => some (Json.str (String.mk l2), r2)
         | none => none) := rfl
  rw [e, stringBody_safe h]

-- sanity: parser still evaluates correctly after the stringBody restructuring
theorem parseMembers_step (f : Nat) {key : List Char}
    (hk : ∀ c ∈ key, jsonSafeChar c = true) (rest3 : List Char) (acc : List (String × Json)) :
    parseMembers (f + 1) ('"' :: (key ++ '"' :: ':' :: rest3)) acc
      = (match parseValue f rest3 with
         | some (v, rest4) =>
           match skipWs rest4 with
           | ',' :: rest5 => parseMembers f rest5 (acc ++ [(String.mk key, v)])
           | '\x7d' :: rest5 => some (.obj (acc ++ [(String.mk key, v)]), rest5)
           | _ => none
         | none => none) := by
  simp only [parseMembers]
  rw [show skipWs ('"' :: (key ++ '"' :: ':' :: rest3)) = '"' :: (key ++ '"' :: ':' :: rest3) from rfl]
  simp [stringBody_safe hk, skipWs]
  rw [show List.dropWhile isJsonWs (':' :: rest3) = ':' :: rest3 from rfl]
  simp

theorem parseMembers_skipSpace (f : Nat) (cs : List Char) (acc : List (String × Json)) :
    parseMembers f (' ' :: cs) acc = parseMembers f cs acc := by
  cases f with
  | zero => rfl
  | succ g =>
    simp only [parseMembers]
    rw [show skipWs (' ' :: cs) = skipWs cs from rfl]

theorem skipWs_w_head {w : List Char} (hw : ∀ c ∈ w, isJsWs c = true) (X : List Char) :
    ∃ d rest2, skipWs (w ++ '"' :: X) = d :: rest2 ∧ d ≠ ',' ∧ d ≠ '\x7d' := by
  induction w with
  | nil => exact ⟨'"', X, rfl, by decide, by decide⟩
  | cons c w2 ih =>
    have hc := hw c (List.mem_cons_self ..)
    by_cases hj : isJsonWs c = true
    · obtain ⟨d, rest2, h1, h2, h3⟩ := ih (fun c2 hc2 => hw c2 (List.mem_cons_of_mem _ hc2))
      refine ⟨d, rest2, ?_, h2, h3⟩
      rw [show ((c :: w2) ++ '"' :: X) = c :: (w2 ++ '"' :: X) from rfl]
      unfold skipWs at h1 ⊢
      rw [List.dropWhile_cons, if_pos hj, h1]
    · refine ⟨c, w2 ++ '"' :: X, ?_, ?_, ?_⟩
      · unfold skipWs
        rw [show ((c :: w2) ++ '"' :: X) = c :: (w2 ++ '"' :: X) from rfl]
        rw [List.dropWhile_cons, if_neg hj]
      · intro he; subst he; exact absurd hc (by decide)
      · intro he; subst he; exact absurd hc (by decide)

theorem parseValue_obj_quote (f : Nat) (cs : List Char) :
    parseValue (f + 1) ('\x7b' :: '"' :: cs) = parseMembers f ('"' :: cs) [] := by
  simp only [parseValue]
  rw [show skipWs ('\x7b' :: '"' :: cs) = '\x7b' :: '"' :: cs from rfl]
  simp
  rw [show skipWs ('"' :: cs) = '"' :: cs from rfl]
  simp
theorem dropWhile_append_all {p : Char → Bool} {l : List Char}
    (h : ∀ c ∈ l, p c = true) (t : List Char) :
    (l ++ t).dropWhile p = t.dropWhile p := by
  induction l with
  | nil => rfl
  | cons c l2 ih =>
    rw [List.cons_append, List.dropWhile_cons, if_pos (h c (List.mem_cons_self ..))]
    exact ih (fun c2 hc2 => h c2 (List.mem_cons_of_mem _ hc2))

theorem takeWhile_append_all {p : Char → Bool} {l : List Char}
    (h : ∀ c ∈ l, p c = true) (t : List Char) :
    (l ++ t).takeWhile p = l ++ t.takeWhile p := by
  induction l with
  | nil => rfl
  | cons c l2 ih =>
    rw [List.cons_append, List.takeWhile_cons, if_pos (h c (List.mem_cons_self ..)),
      ih (fun c2 hc2 => h c2 (List.mem_cons_of_mem _ hc2)), List.cons_append]

theorem matchPat_not_quote (c : Char) (cs : List Char) (h : c ≠ '"') :
    matchPat (c :: cs) = none := by
  simp [matchPat, h]

theorem matchPat_quote_nonws (c : Char) (cs : List Char) (h : isJsWs c = false) :
    matchPat ('"' :: c :: cs) = none := by
  simp [matchPat, List.takeWhile_cons, h]

theorem fixGo_cons_none {c : Char} {cs : List Char} (h : matchPat (c :: cs) = none) :
    fixGo (c :: cs) = c :: fixGo cs := by
  simp [fixGo, h]

theorem fixGo_cons_some {c : Char} {cs after : List Char} (h : matchPat (c :: cs) = some after) :
    fixGo (c :: cs) = repLit ++ after := by
  simp [fixGo, h]

theorem fixGo_append_no_quote {l : List Char} (h : ∀ c ∈ l, c ≠ '"') (cs : List Char) :
    fixGo (l ++ cs) = l ++ fixGo cs := by
  induction l with
  | nil => rfl
  | cons c l2 ih =>
    rw [List.cons_append, fixGo_cons_none (matchPat_not_quote c _ (h c (List.mem_cons_self ..))),
      ih (fun c2 hc2 => h c2 (List.mem_cons_of_mem _ hc2)), List.cons_append]

theorem matchPat_sep {w : List Char} (hw1 : w ≠ []) (hw : ∀ c ∈ w, isJsWs c = true)
    (tail : List Char) :
    matchPat ('"' :: (w ++ ('"' :: (sugKeyChars ++ '"' :: tail)))) = some tail := by
  have hsug : ('"' :: (sugKeyChars ++ '"' :: tail) : List Char) = sugLit ++ tail := rfl
  have hp : sugLit.isPrefixOf (sugLit ++ tail) = true := by
    rw [List.isPrefixOf_iff_prefix]
    exact List.prefix_append _ _
  simp only [matchPat, if_true]
  rw [takeWhile_append_all hw, dropWhile_append_all hw]
  rw [show (('"' :: (sugKeyChars ++ '"' :: tail) : List Char).takeWhile isJsWs) = [] from rfl]
  rw [show (('"' :: (sugKeyChars ++ '"' :: tail) : List Char).dropWhile isJsWs)
      = '"' :: (sugKeyChars ++ '"' :: tail) from rfl]
  rw [List.append_nil, if_neg hw1, hsug, if_pos hp, List.drop_left]

theorem sugLit_not_prefix_of_head {d : Char} (hd : d ≠ '"') (X : List Char) :
    sugLit.isPrefixOf (d :: X) = false := by
  have h1 : ('"' == d) = false := beq_eq_false_iff_ne.mpr (fun he => hd he.symm)
  rw [show sugLit = '"' :: "suggested_improvement\"".data from rfl]
  simp [List.isPrefixOf, h1]

theorem sugLit_not_prefix_of_ws {w : List Char} (hw1 : w ≠ [])
    (hw : ∀ c ∈ w, isJsWs c = true) (X : List Char) :
    sugLit.isPrefixOf ('"' :: (w ++ X)) = false := by
  cases w with
  | nil => exact absurd rfl hw1
  | cons wc w2 =>
    have hc := hw wc (List.mem_cons_self ..)
    have h1 : ('s' == wc) = false := by
      apply beq_eq_false_iff_ne.mpr
      intro he
      rw [← he] at hc
      exact absurd hc (by decide)
    rw [show sugLit = '"' :: 's' :: "uggested_improvement\"".data from rfl]
    rw [show (((wc :: w2) ++ X : List Char)) = wc :: (w2 ++ X) from rfl]
    simp [List.isPrefixOf, h1]

theorem dropWhile_first_nonws {r : List Char} (h : ¬ ∀ c ∈ r, isJsWs c = true) :
    ∃ d r2, r.dropWhile isJsWs = d :: r2 ∧ isJsWs d = false ∧ d ∈ r := by
  induction r with
  | nil => exact absurd (by intro c hc; exact absurd hc (List.not_mem_nil c)) h
  | cons c rr ih =>
    by_cases hc : isJsWs c = true
    · have h2 : ¬ ∀ c2 ∈ rr, isJsWs c2 = true := by
        intro hall
        exact h (by
          intro c2 hc2
          rcases List.mem_cons.mp hc2 with he | hm
          · subst he; exact hc
          · exact hall c2 hm)
      obtain ⟨d, r2, h1, h3, h4⟩ := ih h2
      exact ⟨d, r2, by rw [List.dropWhile_cons, if_pos hc]; exact h1, h3,
        List.mem_cons_of_mem _ h4⟩
    · exact ⟨c, rr, by rw [List.dropWhile_cons, if_neg hc], Bool.eq_false_iff.mpr hc,
        List.mem_cons_self ..⟩

theorem dropWhile_append_of_eq_cons {p : Char → Bool} {r : List Char} {d : Char}
    {r2 : List Char} (h : r.dropWhile p = d :: r2) (X : List Char) :
    (r ++ X).dropWhile p = d :: (r2 ++ X) := by
  induction r with
  | nil => simp [List.dropWhile] at h
  | cons c rr ih =>
    rw [List.dropWhile_cons] at h
    by_cases hc : p c = true
    · rw [if_pos hc] at h
      rw [List.cons_append, List.dropWhile_cons, if_pos hc]
      exact ih h
    · rw [if_neg hc] at h
      injection h with h1 h2
      subst h1
      subst h2
      rw [List.cons_append, List.dropWhile_cons, if_neg hc]

theorem matchPat_open_quote {r w : List Char} (hr : ∀ c ∈ r, c ≠ '"') (hw1 : w ≠ [])
    (hw : ∀ c ∈ w, isJsWs c = true) (tail : List Char) :
    matchPat ('"' :: (r ++ '"' :: (w ++ ('"' :: (sugKeyChars ++ '"' :: tail))))) = none := by
  simp only [matchPat, if_true]
  split
  · rfl
  · by_cases hall : ∀ c ∈ r, isJsWs c = true
    · have hdw : ((r ++ '"' :: (w ++ ('"' :: (sugKeyChars ++ '"' :: tail)))).dropWhile isJsWs)
          = '"' :: (w ++ ('"' :: (sugKeyChars ++ '"' :: tail))) := by
        rw [dropWhile_append_all hall]
        rfl
      rw [hdw, sugLit_not_prefix_of_ws hw1 hw]
      simp
    · obtain ⟨d, r2, h1, h2, h3⟩ := dropWhile_first_nonws hall
      have hdw := dropWhile_append_of_eq_cons h1 ('"' :: (w ++ ('"' :: (sugKeyChars ++ '"' :: tail))))
      rw [hdw, sugLit_not_prefix_of_head (hr d h3)]
      simp
theorem parseValue_fixed (f : Nat) {r s : List Char}
    (hr : ∀ c ∈ r, jsonSafeChar c = true) (hs : ∀ c ∈ s, jsonSafeChar c = true) :
    parseValue (f + 5) (fixedChars r s)
      = some (.obj [("reply", .str (String.mk r)),
                    ("suggested_improvement", .str (String.mk s))], []) := by
  unfold fixedChars
  rw [parseValue_obj_quote]
  rw [show (f + 4 : Nat) = (f + 3) + 1 from rfl]
  rw [parseMembers_step (f + 3) (by decide) _ []]
  rw [show (f + 3 : Nat) = (f + 2) + 1 from rfl]
  rw [parseValue_strLit (f + 2) hr]
  simp only [List.nil_append]
  rw [show skipWs (',' :: ' ' :: '"' :: (sugKeyChars ++ '"' :: ':' :: '"' :: (s ++ ['"', '\x7d'])))
      = ',' :: ' ' :: '"' :: (sugKeyChars ++ '"' :: ':' :: '"' :: (s ++ ['"', '\x7d'])) from rfl]
  simp only []
  rw [parseMembers_skipSpace]
  rw [parseMembers_step (f + 2) (by decide) _ _]
  rw [show (f + 2 : Nat) = (f + 1) + 1 from rfl]
  rw [parseValue_strLit (f + 1) hs]
  simp only []
  rw [show skipWs ('\x7d' :: []) = '\x7d' :: [] from rfl]
  simp only []
  rfl
theorem parseValue_malformed (f : Nat) {r w s : List Char}
    (hr : ∀ c ∈ r, jsonSafeChar c = true) (hw : ∀ c ∈ w, isJsWs c = true) :
    parseValue (f + 2) (malformedChars r w s) = none := by
  unfold malformedChars
  rw [parseValue_obj_quote]
  rw [parseMembers_step f (by decide) _ []]
  cases f with
  | zero => simp [parseValue]
  | succ g =>
    rw [show (g + 1 : Nat) = g + 1 from rfl]
    rw [parseValue_strLit g hr]
    simp only []
    obtain ⟨d, rest2, h1, h2, h3⟩ :=
      skipWs_w_head hw (sugKeyChars ++ '"' :: ':' :: ('"' :: (s ++ '"' :: '\x7d' :: [])))
    rw [h1]
    split
    · rename_i rest5 heq
      injection heq with hdEq _
      exact absurd hdEq h2
    · rename_i rest5 heq
      injection heq with hdEq _
      exact absurd hdEq h3
    · rfl
theorem fixGo_malformed {r w s : List Char}
    (hr : ∀ c ∈ r, c ≠ '"') (hw1 : w ≠ []) (hw : ∀ c ∈ w, isJsWs c = true) :
    fixGo (malformedChars r w s) = fixedChars r s := by
  unfold malformedChars fixedChars
  simp only [replyKeyChars, List.cons_append, List.nil_append]
  rw [fixGo_cons_none (matchPat_not_quote '\x7b' _ (by decide))]
  rw [fixGo_cons_none (matchPat_quote_nonws 'r' _ (by decide))]
  rw [fixGo_cons_none (matchPat_not_quote 'r' _ (by decide))]
  rw [fixGo_cons_none (matchPat_not_quote 'e' _ (by decide))]
  rw [fixGo_cons_none (matchPat_not_quote 'p' _ (by decide))]
  rw [fixGo_cons_none (matchPat_not_quote 'l' _ (by decide))]
  rw [fixGo_cons_none (matchPat_not_quote 'y' _ (by decide))]
  rw [fixGo_cons_none (matchPat_quote_nonws ':' _ (by decide))]
  rw [fixGo_cons_none (matchPat_not_quote ':' _ (by decide))]
  rw [fixGo_cons_none (matchPat_open_quote hr hw1 hw _)]
  rw [fixGo_append_no_quote hr]
  rw [fixGo_cons_some (matchPat_sep hw1 hw _)]
  rfl

theorem parseAIResponse_two (r s : String) (hr : r ≠ "") (hs : s ≠ "") :
    parseAIResponse (Json.obj [("reply", Json.str r), ("suggested_improvement", Json.str s)])
      = some ⟨r, some s⟩ := by
  have l1 : lookupField [("reply", Json.str r), ("suggested_improvement", Json.str s)] "reply"
      = some (Json.str r) := by simp [lookupField]
  have l2 : lookupField [("reply", Json.str r), ("suggested_improvement", Json.str s)]
      "suggested_improvement" = some (Json.str s) := by simp [lookupField]
  simp only [parseAIResponse, l1, l2]
  rw [if_neg hr, if_neg hs]
theorem data_append (a b : String) : (a ++ b).data = a.data ++ b.data := rfl

theorem malformedAI_data (r w s : String) :
    (malformedAI r w s).data = malformedChars r.data w.data s.data := by
  simp only [malformedAI, data_append, List.append_assoc]
  rfl

theorem fixedAI_data (r s : String) :
    (fixedAI r s).data = fixedChars r.data s.data := by
  simp only [fixedAI, data_append, List.append_assoc]
  rfl

theorem jsonSafe_chars {x : String} (h : jsonSafe x = true) :
    ∀ c ∈ x.data, jsonSafeChar c = true := by
  intro c hc
  exact List.all_eq_true.mp h c hc

theorem jsonSafeChar_ne_quote {c : Char} (h : jsonSafeChar c = true) : c ≠ '"' := by
  simp only [jsonSafeChar, Bool.and_eq_true, bne_iff_ne, ne_eq] at h
  exact h.1.1

theorem allJsWs_chars {x : String} (h : allJsWs x = true) :
    ∀ c ∈ x.data, isJsWs c = true := by
  intro c hc
  exact List.all_eq_true.mp h c hc

theorem ne_empty_data {x : String} (h : x ≠ "") : x.data ≠ [] := by
  intro hd
  apply h
  rw [show x = String.mk x.data from rfl, hd]

theorem parseJson_malformed (r w s : String) (hr : jsonSafe r = true)
    (hw1 : w ≠ "") (hw : allJsWs w = true) :
    parseJson (malformedAI r w s) = none := by
  unfold parseJson
  have hlen : 1 ≤ (malformedAI r w s).length := by
    rw [show (malformedAI r w s).length = (malformedAI r w s).data.length from rfl,
      malformedAI_data]
    unfold malformedChars
    simp

  obtain ⟨k, hk⟩ : ∃ k, (malformedAI r w s).length + 1 = k + 2 :=
    ⟨(malformedAI r w s).length - 1, by omega⟩
  rw [hk, malformedAI_data]
  rw [parseValue_malformed k (jsonSafe_chars hr) (allJsWs_chars hw)]

theorem parseJson_fixed (r s : String) (hr : jsonSafe r = true) (hs : jsonSafe s = true) :
    parseJson (fixedAI r s)
      = some (.obj [("reply", .str r), ("suggested_improvement", .str s)]) := by
  unfold parseJson
  have hlen : 4 ≤ (fixedAI r s).length := by
    rw [show (fixedAI r s).length = (fixedAI r s).data.length from rfl, fixedAI_data]
    unfold fixedChars
    simp [replyKeyChars, sugKeyChars]
  obtain ⟨k, hk⟩ : ∃ k, (fixedAI r s).length + 1 = k + 5 :=
    ⟨(fixedAI r s).length - 4, by omega⟩
  rw [hk, fixedAI_data]
  rw [parseValue_fixed k (jsonSafe_chars hr) (jsonSafe_chars hs)]
  simp [skipWs]

/-! ## The claims -/

/-- Claim C1: for every client key, each of the first `MAX_REQUESTS` calls arriving
within one `RATE_LIMIT_WINDOW` of that key's window start is admitted (never 429),
and the sixth call within the same window is denied with status 429 and body
`\x7b"msg":"Too many requests"\x7d`, without incrementing the stored count. -/
theorem rate_limit_first_five_admitted_sixth_denied
    (req : Request) (g : GatewayOutcome) (m : IpMap)
    (t0 t1 t2 t3 t4 t5 : Nat) (r0 r1 r2 r3 r4 r5 : HandlerResult)
    (hm : m (clientKey req) = none)
    (e0 : r0 = handleRequest req g t0 m)
    (e1 : r1 = handleRequest req g t1 r0.ipMap)
    (e2 : r2 = handleRequest req g t2 r1.ipMap)
    (e3 : r3 = handleRequest req g t3 r2.ipMap)
    (e4 : r4 = handleRequest req g t4 r3.ipMap)
    (e5 : r5 = handleRequest req g t5 r4.ipMap)
    (h1 : t1 - t0 < RATE_LIMIT_WINDOW) (h2 : t2 - t0 < RATE_LIMIT_WINDOW)
    (h3 : t3 - t0 < RATE_LIMIT_WINDOW) (h4 : t4 - t0 < RATE_LIMIT_WINDOW)
    (h5 : t5 - t0 < RATE_LIMIT_WINDOW) :
    r0.response.status ≠ 429 ∧ r1.response.status ≠ 429 ∧ r2.response.status ≠ 429 ∧
    r3.response.status ≠ 429 ∧ r4.response.status ≠ 429 ∧
    r4.ipMap (clientKey req) = some ⟨MAX_REQUESTS, t0⟩ ∧
    r5.response = ⟨429, tooManyBody, []⟩ ∧
    r5.ipMap (clientKey req) = some ⟨MAX_REQUESTS, t0⟩ := by
  subst e0 e1 e2 e3 e4 e5
  have hrc0 := @rateCheck_none m (clientKey req) t0 hm
  have hip0 : (handleRequest req g t0 m).ipMap (clientKey req) = some ⟨1, t0⟩ := by
    rw [handleRequest_ipMap hrc0]; exact setIp_self ..
  have hrc1 := rateCheck_under hip0 h1 (by decide)
  have hip1 : (handleRequest req g t1 (handleRequest req g t0 m).ipMap).ipMap (clientKey req)
      = some ⟨2, t0⟩ := by
    rw [handleRequest_ipMap hrc1]; exact setIp_self ..
  have hrc2 := rateCheck_under hip1 h2 (by decide)
  have hip2 : (handleRequest req g t2 (handleRequest req g t1
      (handleRequest req g t0 m).ipMap).ipMap).ipMap (clientKey req) = some ⟨3, t0⟩ := by
    rw [handleRequest_ipMap hrc2]; exact setIp_self ..
  have hrc3 := rateCheck_under hip2 h3 (by decide)
  have hip3 : (handleRequest req g t3 (handleRequest req g t2 (handleRequest req g t1
      (handleRequest req g t0 m).ipMap).ipMap).ipMap).ipMap (clientKey req) = some ⟨4, t0⟩ := by
    rw [handleRequest_ipMap hrc3]; exact setIp_self ..
  have hrc4 := rateCheck_under hip3 h4 (by decide)
  have hip4 : (handleRequest req g t4 (handleRequest req g t3 (handleRequest req g t2
      (handleRequest req g t1 (handleRequest req g t0 m).ipMap).ipMap).ipMap).ipMap).ipMap
      (clientKey req) = some ⟨5, t0⟩ := by
    rw [handleRequest_ipMap hrc4]; exact setIp_self ..
  have hrc5 := rateCheck_full hip4 h5 (by decide)
  have hden := @handleRequest_of_denied req g t5 _ _ hrc5
  refine ⟨handleRequest_status_ne429 hrc0, handleRequest_status_ne429 hrc1,
    handleRequest_status_ne429 hrc2, handleRequest_status_ne429 hrc3,
    handleRequest_status_ne429 hrc4, hip4, ?_, ?_⟩
  · rw [hden]
  · rw [hden]; exact hip4

theorem rate_limit_first_five_admitted_sixth_denied_witness :
    (handleRequest sampleReq sampleGw 0 (sampleMap 0)).response.status ≠ 429 ∧
    (handleRequest sampleReq sampleGw 0 (sampleMap 1)).response.status ≠ 429 ∧
    (handleRequest sampleReq sampleGw 0 (sampleMap 2)).response.status ≠ 429 ∧
    (handleRequest sampleReq sampleGw 0 (sampleMap 3)).response.status ≠ 429 ∧
    (handleRequest sampleReq sampleGw 0 (sampleMap 4)).response.status ≠ 429 ∧
    (handleRequest sampleReq sampleGw 0 (sampleMap 4)).ipMap (clientKey sampleReq)
      = some ⟨MAX_REQUESTS, 0⟩ ∧
    (handleRequest sampleReq sampleGw 0 (sampleMap 5)).response = ⟨429, tooManyBody, []⟩ ∧
    (handleRequest sampleReq sampleGw 0 (sampleMap 5)).ipMap (clientKey sampleReq)
      = some ⟨MAX_REQUESTS, 0⟩ :=
  rate_limit_first_five_admitted_sixth_denied sampleReq sampleGw emptyIpMap 0 0 0 0 0 0
    (handleRequest sampleReq sampleGw 0 (sampleMap 0))
    (handleRequest sampleReq sampleGw 0 (sampleMap 1))
    (handleRequest sampleReq sampleGw 0 (sampleMap 2))
    (handleRequest sampleReq sampleGw 0 (sampleMap 3))
    (handleRequest sampleReq sampleGw 0 (sampleMap 4))
    (handleRequest sampleReq sampleGw 0 (sampleMap 5))
    rfl rfl rfl rfl rfl rfl rfl (by decide) (by decide) (by decide) (by decide) (by decide)

/-- Claim C2 (code bug): contrary to the spec, the rate limiter runs before the
method check. A GET request from a client key whose window is exhausted receives
429 instead of 405, and a GET request from a fresh key creates a rate-limit
entry before receiving its 405. -/
theorem non_post_hits_rate_limiter_first :
    (handleRequest ⟨"GET", none, ""⟩ (GatewayOutcome.ok "x") 1
        (setIp emptyIpMap "unknown" ⟨5, 0⟩)).response.status = 429 ∧
    (handleRequest ⟨"GET", none, ""⟩ (GatewayOutcome.ok "x") 1 emptyIpMap).response.status = 405 ∧
    (handleRequest ⟨"GET", none, ""⟩ (GatewayOutcome.ok "x") 1 emptyIpMap).ipMap "unknown"
      = some ⟨1, 1⟩ := by
  refine ⟨?_, ?_, ?_⟩ <;> decide

/-- Claim C3: a POST body that is missing `input`, missing `semester`, contains
an unexpected extra field, or contains `stage` at all (the strict schema has no
`stage` field, so any `stage` value is an unexpected field — in particular one
outside 1..3) is rejected with 400; no gateway call is attempted and no partial
body object is produced (`parseBody` yields `none`, never a partial record). -/
theorem invalid_body_rejected_400
    (req : Request) (g : GatewayOutcome) (now : Nat) (m : IpMap) (fs : List (String × Json))
    (hpost : req.method = "POST")
    (hm : m (clientKey req) = none)
    (hj : parseJson req.body = some (Json.obj fs))
    (hbad : lookupField fs "input" = none ∨ lookupField fs "semester" = none ∨
            (∃ kv ∈ fs, bodyKeyAllowed kv.1 = false) ∨
            (∃ v, lookupField fs "stage" = some v)) :
    parseBody (Json.obj fs) = none ∧
    (handleRequest req g now m).response.status = 400 ∧
    (handleRequest req g now m).gatewayCalled = false := by
  have hpb := parseBody_none_cases hbad
  rw [handleRequest_invalid_body hpost hm hj hpb]
  exact ⟨hpb, rfl, rfl⟩

theorem invalid_body_rejected_400_witness :
    parseBody (Json.obj [("input", Json.str "x")]) = none ∧
    (handleRequest ⟨"POST", none, "\x7b\"input\":\"x\"\x7d"⟩ sampleGw 0
        emptyIpMap).response.status = 400 ∧
    (handleRequest ⟨"POST", none, "\x7b\"input\":\"x\"\x7d"⟩ sampleGw 0
        emptyIpMap).gatewayCalled = false :=
  invalid_body_rejected_400 ⟨"POST", none, "\x7b\"input\":\"x\"\x7d"⟩ sampleGw 0 emptyIpMap
    [("input", Json.str "x")] rfl rfl rfl (Or.inr (Or.inl rfl))

/-- Claim C4 (counterexample): supplying `stage = 1` does not behave like
omitting `stage`. The strict body schema has no `stage` field, so the body with
`stage: 1` is rejected with 400 and never reaches the gateway, while the same
body without `stage` yields 200. -/
theorem stage_one_differs_from_omitted :
    (handleRequest ⟨"POST", none, "\x7b\"input\":\"x\",\"semester\":\x7b\x7d,\"stage\":1\x7d"⟩
        sampleGw 0 emptyIpMap).response.status = 400 ∧
    (handleRequest ⟨"POST", none, "\x7b\"input\":\"x\",\"semester\":\x7b\x7d,\"stage\":1\x7d"⟩
        sampleGw 0 emptyIpMap).gatewayCalled = false ∧
    (handleRequest ⟨"POST", none, "\x7b\"input\":\"x\",\"semester\":\x7b\x7d\x7d"⟩
        sampleGw 0 emptyIpMap).response.status = 200 ∧
    (handleRequest ⟨"POST", none, "\x7b\"input\":\"x\",\"semester\":\x7b\x7d\x7d"⟩
        sampleGw 0 emptyIpMap).response ≠
      (handleRequest ⟨"POST", none, "\x7b\"input\":\"x\",\"semester\":\x7b\x7d,\"stage\":1\x7d"⟩
        sampleGw 0 emptyIpMap).response := by
  refine ⟨?_, ?_, ?_, ?_⟩ <;> decide

/-- Claim C4 (amended): the request schema accepts no `stage` field at all:
any body containing `stage` (with any value, 1 included) is rejected with 400
and no gateway call is attempted, while an otherwise-valid body omitting
`stage` proceeds through the pipeline with the single fixed system
instruction `SYSTEM_PROMPT`. -/
theorem stage_rejected_omitted_proceeds
    (req1 req2 : Request) (g : GatewayOutcome) (now : Nat) (m : IpMap)
    (fs1 : List (String × Json)) (b2 : BodyOk) (t : String)
    (hp1 : req1.method = "POST") (hp2 : req2.method = "POST")
    (hm1 : m (clientKey req1) = none) (hm2 : m (clientKey req2) = none)
    (hj1 : parseJson req1.body = some (Json.obj fs1))
    (hstage : ∃ v, lookupField fs1 "stage" = some v)
    (hb2 : (parseJson req2.body).bind parseBody = some b2)
    (hg : g = GatewayOutcome.ok t) (ht : t ≠ "") :
    ((handleRequest req1 g now m).response.status = 400 ∧
     (handleRequest req1 g now m).gatewayCalled = false) ∧
    ((handleRequest req2 g now m).response.status = 200 ∧
     (handleRequest req2 g now m).messages =
       [⟨"system", SYSTEM_PROMPT⟩, ⟨"user", userContent b2⟩]) := by
  constructor
  · have hpb := parseBody_none_cases (Or.inr (Or.inr (Or.inr hstage)))
    rw [handleRequest_invalid_body hp1 hm1 hj1 hpb]
    exact ⟨rfl, rfl⟩
  · rw [handleRequest_ok hp2 hm2 hb2 hg ht]
    exact ⟨rfl, rfl⟩

theorem stage_rejected_omitted_proceeds_witness :
    ((handleRequest ⟨"POST", none, "\x7b\"input\":\"x\",\"semester\":\x7b\x7d,\"stage\":1\x7d"⟩
        sampleGw 0 emptyIpMap).response.status = 400 ∧
     (handleRequest ⟨"POST", none, "\x7b\"input\":\"x\",\"semester\":\x7b\x7d,\"stage\":1\x7d"⟩
        sampleGw 0 emptyIpMap).gatewayCalled = false) ∧
    ((handleRequest sampleReq sampleGw 0 emptyIpMap).response.status = 200 ∧
     (handleRequest sampleReq sampleGw 0 emptyIpMap).messages =
       [⟨"system", SYSTEM_PROMPT⟩, ⟨"user", userContent ⟨"a", []⟩⟩]) :=
  stage_rejected_omitted_proceeds
    ⟨"POST", none, "\x7b\"input\":\"x\",\"semester\":\x7b\x7d,\"stage\":1\x7d"⟩ sampleReq
    sampleGw 0 emptyIpMap
    [("input", Json.str "x"), ("semester", Json.obj []), ("stage", Json.num "1")]
    ⟨"a", []⟩ "\x7b\"reply\":\"b\"\x7d"
    rfl rfl rfl rfl rfl ⟨Json.num "1", rfl⟩ rfl rfl (by decide)

/-- Claim C5: reconciliation is total — it always returns a structurally valid
`AIResult` — and when both the direct parse and the repaired parse fail it
returns the fixed fallback whose reply is the apology-and-retry message with no
`suggested_improvement`; on the success path the caller receives a 200 whose
body is the rendered reconciliation result. -/
theorem reconcile_never_fails
    (t : String)
    (h1 : parseAIJson t = none) (h2 : parseAIJson (fixText t) = none) :
    reconcile t = ⟨fallbackReply, none⟩ ∧
    fallbackReply = "Sorry, could not generate insights. Try again." ∧
    (∀ u : String, AIResultValid (reconcile u)) ∧
    (∀ (req : Request) (now : Nat) (m : IpMap) (u : String),
      req.method = "POST" → m (clientKey req) = none →
      (∃ b, (parseJson req.body).bind parseBody = some b) → u ≠ "" →
      (handleRequest req (GatewayOutcome.ok u) now m).response.status = 200 ∧
      (handleRequest req (GatewayOutcome.ok u) now m).response.body
        = renderAIResult (reconcile u)) := by
  refine ⟨?_, rfl, reconcile_valid, ?_⟩
  · unfold reconcile
    rw [h1, h2]
  · rintro req now m u hpost hm ⟨b, hb⟩ hu
    rw [handleRequest_ok hpost hm hb rfl hu]
    exact ⟨rfl, rfl⟩

theorem reconcile_never_fails_witness :
    parseAIJson "oops" = none ∧ parseAIJson (fixText "oops") = none ∧
    reconcile "oops" = ⟨fallbackReply, none⟩ :=
  ⟨rfl, rfl, (reconcile_never_fails "oops" rfl rfl).1⟩

/-- Claim C6: when the raw text is already a valid AIResult-shaped JSON string
(an object whose `reply` is a non-empty string, whose `suggested_improvement`
is absent or a non-empty string, and with no other fields), reconciliation
returns exactly the encoded result, unchanged. -/
theorem reconcile_roundtrip
    (t : String) (fs : List (String × Json)) (r : String) (si : Option String)
    (hj : parseJson t = some (Json.obj fs))
    (hr : lookupField fs "reply" = some (Json.str r)) (hrne : r ≠ "")
    (hsi : (si = none ∧ lookupField fs "suggested_improvement" = none) ∨
           (∃ s, si = some s ∧ s ≠ "" ∧
             lookupField fs "suggested_improvement" = some (Json.str s)))
    (hclosed : ∀ kv ∈ fs, kv.1 = "reply" ∨ kv.1 = "suggested_improvement") :
    reconcile t = ⟨r, si⟩ := by
  have hpar : parseAIResponse (Json.obj fs) = some ⟨r, si⟩ := by
    simp only [parseAIResponse, hr]
    rw [if_neg hrne]
    rcases hsi with ⟨hn, hl⟩ | ⟨s, hs, hne, hl⟩
    · simp only [hl]
      subst hn
      rfl
    · simp only [hl]
      rw [if_neg hne]
      subst hs
      rfl
  have hAI : parseAIJson t = some ⟨r, si⟩ := by
    unfold parseAIJson
    rw [hj]
    exact hpar
  unfold reconcile
  rw [hAI]

theorem reconcile_roundtrip_witness :
    reconcile "\x7b\"reply\":\"hi\"\x7d" = ⟨"hi", none⟩ :=
  reconcile_roundtrip "\x7b\"reply\":\"hi\"\x7d" [("reply", Json.str "hi")] "hi" none rfl rfl
    (by decide) (Or.inl ⟨rfl, rfl⟩)
    (by intro kv hkv; rw [List.mem_singleton] at hkv; subst hkv; exact Or.inl rfl)

/-- Claim C8 (counterexample): the outgoing `AIResponseSchema` is not strict.
A model output that parses as JSON and contains a field other than `reply` and
`suggested_improvement` passes tier-1 validation (the extra field is silently
dropped) instead of being rejected. -/
theorem outgoing_schema_accepts_extra_field :
    parseAIJson "\x7b\"reply\":\"hi\",\"extra\":\"x\"\x7d" = some ⟨"hi", none⟩ ∧
    reconcile "\x7b\"reply\":\"hi\",\"extra\":\"x\"\x7d" = ⟨"hi", none⟩ :=
  ⟨rfl, rfl⟩

/-- Claim C8 (amended): the outgoing schema checks `reply` (non-empty string)
and optional `suggested_improvement`, but is not closed-field: any JSON object
with a valid `reply` is accepted by the shape check with unknown fields
stripped, regardless of extra fields. -/
theorem outgoing_schema_not_strict
    (fs : List (String × Json)) (r : String)
    (hr : lookupField fs "reply" = some (Json.str r)) (hrne : r ≠ "")
    (hsi : lookupField fs "suggested_improvement" = none)
    (hextra : ∃ kv ∈ fs, kv.1 ≠ "reply" ∧ kv.1 ≠ "suggested_improvement") :
    parseAIResponse (Json.obj fs) = some ⟨r, none⟩ := by
  simp only [parseAIResponse, hr]
  rw [if_neg hrne]
  simp only [hsi]

theorem outgoing_schema_not_strict_witness :
    parseAIResponse (Json.obj [("reply", Json.str "hi"), ("extra", Json.str "x")])
      = some ⟨"hi", none⟩ :=
  outgoing_schema_not_strict [("reply", Json.str "hi"), ("extra", Json.str "x")] "hi"
    rfl (by decide) rfl
    ⟨("extra", Json.str "x"), by simp, by decide, by decide⟩

/-- Claim C9 (code bug): the timeout timer is armed before body validation but
`clearTimeout` is reached only after a successful gateway return: a call that
fails body validation (400) and a call whose gateway invocation rejects (500)
both terminate with the timer still armed, while the success path clears it. -/
theorem timer_left_armed_on_failure_paths :
    ((handleRequest ⟨"POST", none, "not json"⟩ (GatewayOutcome.ok "x") 0
        emptyIpMap).response.status = 400 ∧
     (handleRequest ⟨"POST", none, "not json"⟩ (GatewayOutcome.ok "x") 0
        emptyIpMap).timerArmed = true ∧
     (handleRequest ⟨"POST", none, "not json"⟩ (GatewayOutcome.ok "x") 0
        emptyIpMap).timerCleared = false) ∧
    ((handleRequest sampleReq GatewayOutcome.err 0 emptyIpMap).response.status = 500 ∧
     (handleRequest sampleReq GatewayOutcome.err 0 emptyIpMap).timerArmed = true ∧
     (handleRequest sampleReq GatewayOutcome.err 0 emptyIpMap).timerCleared = false) ∧
    ((handleRequest sampleReq sampleGw 0 emptyIpMap).response.status = 200 ∧
     (handleRequest sampleReq sampleGw 0 emptyIpMap).timerCleared = true) := by
  refine ⟨⟨?_, ?_, ?_⟩, ⟨?_, ?_, ?_⟩, ?_, ?_⟩ <;> decide

/-- Claim C10: in every state of the rate-limiter map reachable by any sequence
of calls at any timestamps, every stored entry satisfies
`count ≤ MAX_REQUESTS`. -/
theorem stored_count_le_max
    (calls : List (Request × GatewayOutcome × Nat)) (k : String) (r : RateRecord)
    (h : runCalls calls emptyIpMap k = some r) : r.count ≤ MAX_REQUESTS :=
  runCalls_inv calls emptyIpMap (fun _ _ h2 => Option.noConfusion h2) k r h

theorem stored_count_le_max_witness :
    runCalls [(sampleReq, sampleGw, 0)] emptyIpMap "unknown" = some ⟨1, 0⟩ ∧
    (RateRecord.mk 1 0).count ≤ MAX_REQUESTS :=
  ⟨rfl, stored_count_le_max [(sampleReq, sampleGw, 0)] "unknown" ⟨1, 0⟩ rfl⟩

/-- Claim C7: for every raw text exhibiting the known malformation pattern —
an otherwise-valid AIResult JSON object (quote-, backslash- and control-free
field texts, non-empty `reply` and `suggested_improvement`) whose field
separator before the `"suggested_improvement"` key has been replaced by
whitespace — the direct parse fails, the repair regex inserts the missing
separator, and reconciliation returns the AIResult with both fields
correctly extracted. -/
theorem reconcile_repairs_missing_separator (r w s : String)
    (hrne : r ≠ "") (hsne : s ≠ "")
    (hrsafe : jsonSafe r = true) (hssafe : jsonSafe s = true)
    (hwne : w ≠ "") (hwws : allJsWs w = true) :
    parseAIJson (malformedAI r w s) = none ∧
    fixText (malformedAI r w s) = fixedAI r s ∧
    reconcile (malformedAI r w s) = ⟨r, some s⟩ := by
  have hrq : ∀ c ∈ r.data, c ≠ '"' :=
    fun c hc => jsonSafeChar_ne_quote (jsonSafe_chars hrsafe c hc)
  have h1 : parseAIJson (malformedAI r w s) = none := by
    unfold parseAIJson
    rw [parseJson_malformed r w s hrsafe hwne hwws]
    rfl
  have h2 : fixText (malformedAI r w s) = fixedAI r s := by
    unfold fixText
    rw [malformedAI_data]
    rw [fixGo_malformed hrq (ne_empty_data hwne) (allJsWs_chars hwws)]
    rw [show fixedChars r.data s.data = (fixedAI r s).data from (fixedAI_data r s).symm]
  have h3 : parseAIJson (fixedAI r s) = some ⟨r, some s⟩ := by
    unfold parseAIJson
    rw [parseJson_fixed r s hrsafe hssafe]
    exact parseAIResponse_two r s hrne hsne
  refine ⟨h1, h2, ?_⟩
  unfold reconcile
  rw [h1, h2, h3]

theorem reconcile_repairs_missing_separator_witness :
    parseAIJson (malformedAI "a" " " "b") = none ∧
    fixText (malformedAI "a" " " "b") = fixedAI "a" "b" ∧
    reconcile (malformedAI "a" " " "b") = ⟨"a", some "b"⟩ :=
  reconcile_repairs_missing_separator "a" " " "b" (by decide) (by decide) (by decide)
    (by decide) (by decide) (by decide)

end GpcalAi
